import Mathlib

/-!
# Verification of the Upload_garmin_connect training-plan pipeline

This file gives a shallow embedding, in Lean 4, of the text-processing core of
the repository: the cycling interval parser of `src/pdf_parser_v3.py` (phase
handling, repetition expansion, decomposed blocks, the Home-Trainer power
rules), the repeat-group re-detection and step construction of
`src/garmin_workout_converter.py`, the batch upload loop of
`scripts/upload_weekly_workouts.py`, the duration helpers of
`src/garmin_workout_api.py` and `scripts/fill_gsheets_from_garmin.py`, and the
phase tracking of the older `src/pdf_parser.py`.

Python strings are modelled as `List Char`; Python dictionaries with a fixed
key set are modelled as structures whose optional keys become `Option` fields;
Python code that can raise (`int(...)` on malformed text) returns `Option`.
The regular expressions used by the source are hand-compiled into explicit
scanning functions with `re.search` (leftmost-match) semantics; each such
function is named after the regex it implements.
-/

namespace UploadGarmin

/-! ## Python string primitives -/

/-- Characters accepted by Python's `\s` regex class (ASCII part, which is all
the source documents use). -/
def pyIsSpace (c : Char) : Bool :=
  c = ' ' || c = '\t' || c = '\n' || c = '\x0d' || c = '\x0b' || c = '\x0c'

/-- Python `str.strip()` (whitespace from both ends). -/
def pyStrip (s : List Char) : List Char :=
  ((s.dropWhile pyIsSpace).reverse.dropWhile pyIsSpace).reverse

/-- ASCII/Latin-1 lowercase map, the fragment of Python `str.lower()` that the
source's phase labels can exercise (ASCII letters plus the accented capitals
appearing in the French labels). -/
def pyLowerChar (c : Char) : Char :=
  if 'A' ≤ c && c ≤ 'Z' then Char.ofNat (c.toNat + 32)
  else if c = 'É' then 'é'
  else if c = 'È' then 'è'
  else if c = 'Ê' then 'ê'
  else if c = 'À' then 'à'
  else if c = 'Â' then 'â'
  else if c = 'Ç' then 'ç'
  else if c = 'Î' then 'î'
  else if c = 'Ô' then 'ô'
  else if c = 'Û' then 'û'
  else if c = 'Ù' then 'ù'
  else c

/-- Python `str.lower()`. -/
def pyLower (s : List Char) : List Char := s.map pyLowerChar

/-- Whether `pat` occurs as a contiguous substring of `s` (Python `pat in s`). -/
def containsSub (s pat : List Char) : Bool :=
  match s with
  | [] => decide (pat = [])
  | _ :: rest => pat.isPrefixOf s || containsSub rest pat

/-- Index of the first occurrence of `pat` in `s` (Python `str.find`,
`None` for `-1`). -/
def findSub (s pat : List Char) : Option Nat :=
  match s with
  | [] => if pat = [] then some 0 else none
  | _ :: rest =>
    if pat.isPrefixOf s then some 0
    else (findSub rest pat).map (· + 1)

/-- Index of the last occurrence of `pat` in `s` (Python `str.rfind`,
`None` for `-1`). -/
def rfindSub (s pat : List Char) : Option Nat :=
  match s with
  | [] => if pat = [] then some 0 else none
  | _ :: rest =>
    match rfindSub rest pat with
    | some i => some (i + 1)
    | none => if pat.isPrefixOf s then some 0 else none

/-- Python `str.split(sep)` for a one-character separator: always returns a
non-empty list and keeps empty fields. -/
def pySplitOn (sep : Char) : List Char → List (List Char)
  | [] => [[]]
  | c :: cs =>
    if c = sep then [] :: pySplitOn sep cs
    else
      match pySplitOn sep cs with
      | [] => [[c]]
      | t :: ts => (c :: t) :: ts

/-- Python `str.replace(' ', '')`. -/
def dropSpaces (s : List Char) : List Char := s.filter (fun c => decide (c ≠ ' '))

/-! ## Decimal numerals -/

/-- Digit-extraction worker; the fuel argument only bounds the recursion depth
(`fuel ≥ n` makes the `0` case unreachable) and keeps the definition
structural so that the kernel can evaluate it. -/
def natDigitsAux (fuel n : Nat) : List Nat :=
  match fuel with
  | 0 => [n % 10]
  | f + 1 => if n < 10 then [n] else natDigitsAux f (n / 10) ++ [n % 10]

/-- The decimal digits of `n`, most significant first. -/
def natDigits (n : Nat) : List Nat := natDigitsAux n n

/-- One decimal digit as a character (only ever applied to values `< 10`). -/
def digitChar (d : Nat) : Char :=
  match d with
  | 0 => '0' | 1 => '1' | 2 => '2' | 3 => '3' | 4 => '4'
  | 5 => '5' | 6 => '6' | 7 => '7' | 8 => '8' | _ => '9'

/-- Value of a decimal digit character, `none` on anything else (the failing
branch of Python `int()`). -/
def charDigit (c : Char) : Option Nat :=
  if '0' ≤ c && c ≤ '9' then some (c.toNat - 48) else none

def isDigitChar (c : Char) : Bool := (charDigit c).isSome

/-- Decimal rendering of `n` (Python `str(n)` / f-string interpolation). -/
def natToChars (n : Nat) : List Char := (natDigits n).map digitChar

/-- Python `int()` on a non-negative decimal literal; `none` models the
`ValueError` raised on malformed text. -/
def pyIntNat (s : List Char) : Option Nat :=
  match s with
  | [] => none
  | _ =>
    s.foldl (fun acc c => do return 10 * (← acc) + (← charDigit c)) (some 0)

/-- Digit run to value (`int` applied to a string already known to be digits). -/
def digitsToNat (s : List Char) : Nat :=
  s.foldl (fun acc c => 10 * acc + ((charDigit c).getD 0)) 0

/-- f-string `{n:02d}`: zero-pad to width two. -/
def fmt2 (n : Nat) : List Char :=
  if n < 10 then '0' :: natToChars n else natToChars n

/-! ## Duration helpers

`GarminWorkoutAPI.duration_to_seconds` (src/garmin_workout_api.py) and
`seconds_to_duration_string` (scripts/fill_gsheets_from_garmin.py). -/

/-- `duration_to_seconds`: split on `:`; with exactly two fields return
`int(parts[0]) * 60 + int(parts[1])`, otherwise `0`.  `none` models the
`ValueError` that `int()` raises on non-numeric fields. -/
def duration_to_seconds (duration_str : List Char) : Option Nat :=
  match pySplitOn ':' duration_str with
  | [p0, p1] => do return (← pyIntNat p0) * 60 + (← pyIntNat p1)
  | _ => some 0

/-- `seconds_to_duration_string`: `hours = seconds // 3600`,
`minutes = (seconds % 3600) // 60`, rendered `f"{hours:02d}:{minutes:02d}"`. -/
def seconds_to_duration_string (seconds : Nat) : List Char :=
  fmt2 (seconds / 3600) ++ ':' :: fmt2 ((seconds % 3600) / 60)

/-! ### Numeral lemmas -/

theorem natDigitsAux_of_lt (fuel n : Nat) (h : n < 10) :
    natDigitsAux fuel n = [n] := by
  cases fuel with
  | zero => simp [natDigitsAux, Nat.mod_eq_of_lt h]
  | succ f => simp [natDigitsAux, h]

theorem natDigits_of_lt (n : Nat) (h : n < 10) : natDigits n = [n] :=
  natDigitsAux_of_lt n n h

theorem natDigits_of_two (n : Nat) (h1 : 10 ≤ n) (h2 : n ≤ 99) :
    natDigits n = [n / 10, n % 10] := by
  obtain ⟨f, rfl⟩ : ∃ f, n = f + 1 := ⟨n - 1, by omega⟩
  rw [natDigits, natDigitsAux, if_neg (by omega),
    natDigitsAux_of_lt f ((f + 1) / 10) (by omega)]
  rfl

theorem fmt2_eq_pair (n : Nat) (h : n ≤ 99) :
    fmt2 n = [digitChar (n / 10), digitChar (n % 10)] := by
  by_cases h10 : n < 10
  · have hd : n / 10 = 0 := by omega
    have hm : n % 10 = n := by omega
    simp [fmt2, h10, natToChars, natDigits_of_lt n h10, hd, hm, digitChar]
  · simp [fmt2, h10, natToChars, natDigits_of_two n (by omega) h]

theorem digitChar_ne_colon (d : Nat) : digitChar d ≠ ':' := by
  unfold digitChar
  split <;> decide

theorem charDigit_digitChar (d : Nat) (h : d < 10) :
    charDigit (digitChar d) = some d := by
  interval_cases d <;> rfl

theorem pyIntNat_two (a b : Nat) (ha : a < 10) (hb : b < 10) :
    pyIntNat [digitChar a, digitChar b] = some (10 * a + b) := by
  simp [pyIntNat, charDigit_digitChar a ha, charDigit_digitChar b hb]

theorem pySplitOn_of_no_sep (sep : Char) (s : List Char)
    (h : ∀ c ∈ s, c ≠ sep) : pySplitOn sep s = [s] := by
  induction s with
  | nil => rfl
  | cons c cs ih =>
    have hc : c ≠ sep := h c (by simp)
    rw [pySplitOn, if_neg hc, ih (fun x hx => h x (by simp [hx]))]

theorem pySplitOn_append (sep : Char) (a b : List Char)
    (h : ∀ c ∈ a, c ≠ sep) :
    pySplitOn sep (a ++ sep :: b) = a :: pySplitOn sep b := by
  induction a with
  | nil => simp [pySplitOn]
  | cons c cs ih =>
    have hc : c ≠ sep := h c (by simp)
    rw [List.cons_append, pySplitOn, if_neg hc,
      ih (fun x hx => h x (by simp [hx]))]

theorem fmt2_no_colon (n : Nat) (h : n ≤ 99) : ∀ c ∈ fmt2 n, c ≠ ':' := by
  rw [fmt2_eq_pair n h]
  intro c hc
  simp only [List.mem_cons, List.mem_singleton, List.not_mem_nil] at hc
  rcases hc with rfl | rfl | hfalse
  · exact digitChar_ne_colon _
  · exact digitChar_ne_colon _
  · exact absurd hfalse (by simp)

/-- Claim C5, amended — `duration_to_seconds` of an `hh:mm` string and
`seconds_to_duration_string` invert each other only after rescaling the
result by 60: the former returns `h*60 + m` (minutes when the string is read
as hours:minutes), the latter formats a second count as `hh:mm`. -/
theorem duration_roundtrip_after_rescale (h m : Nat) (hh : h ≤ 99) (hm : m ≤ 59) :
    (duration_to_seconds (fmt2 h ++ ':' :: fmt2 m)).map
        (fun n => seconds_to_duration_string (n * 60))
      = some (fmt2 h ++ ':' :: fmt2 m) := by
  have hsplit : pySplitOn ':' (fmt2 h ++ ':' :: fmt2 m) = [fmt2 h, fmt2 m] := by
    rw [pySplitOn_append ':' _ _ (fmt2_no_colon h hh),
      pySplitOn_of_no_sep ':' _ (fmt2_no_colon m (by omega))]
  have hih : pyIntNat (fmt2 h) = some h := by
    rw [fmt2_eq_pair h hh, pyIntNat_two _ _ (by omega) (by omega)]
    congr 1
    omega
  have him : pyIntNat (fmt2 m) = some m := by
    rw [fmt2_eq_pair m (by omega), pyIntNat_two _ _ (by omega) (by omega)]
    congr 1
    omega
  have hval : duration_to_seconds (fmt2 h ++ ':' :: fmt2 m) = some (h * 60 + m) := by
    unfold duration_to_seconds
    rw [hsplit]
    simp [hih, him]
  rw [hval]
  have e1 : (h * 60 + m) * 60 / 3600 = h := by omega
  have e2 : (h * 60 + m) * 60 % 3600 / 60 = m := by omega
  simp only [Option.map_some']
  rw [seconds_to_duration_string, e1, e2]

/-- Witness for the amended C5 theorem at `h = 2`, `m = 30` (`"02:30"`). -/
theorem duration_roundtrip_after_rescale_witness :
    (duration_to_seconds (fmt2 2 ++ ':' :: fmt2 30)).map
        (fun n => seconds_to_duration_string (n * 60))
      = some (fmt2 2 ++ ':' :: fmt2 30) :=
  duration_roundtrip_after_rescale 2 30 (by decide) (by decide)

/-- Claim C5, counterexample — the round-trip claimed by the spec fails on
`"02:30"`: `duration_to_seconds "02:30" = 150`, and
`seconds_to_duration_string 150 = "00:02" ≠ "02:30"`. -/
theorem duration_roundtrip_fails :
    (duration_to_seconds "02:30".data).map seconds_to_duration_string
        = some "00:02".data
      ∧ "00:02".data ≠ "02:30".data := by
  constructor
  · decide
  · decide

/-! ## Cycling power adjustment (src/pdf_parser_v3.py)

`TriathlonPDFParserV3.HT_WARMUP_STANDARD` and
`TriathlonPDFParserV3.adjust_power_for_garmin`. -/

/-- One `{"duration": ..., "power": ...}` entry of `HT_WARMUP_STANDARD`. -/
structure HTBlock where
  duration : List Char
  power : List Char
deriving DecidableEq, Repr

/-- The fixed Home-Trainer warmup sequence. -/
def HT_WARMUP_STANDARD : List HTBlock :=
  [⟨"2:30".data, "96à106".data⟩,
   ⟨"2:30".data, "130à136".data⟩,
   ⟨"5:00".data, "156à166".data⟩,
   ⟨"5:00".data, "180à190".data⟩]

/-- The `"adjustment"` field of the dict returned by
`adjust_power_for_garmin`: either a wattage integer (`0` or `15`) or the
string `"forced"`. -/
inductive PowerAdjustment where
  | watts (n : Nat)
  | forced
deriving DecidableEq, Repr

/-- The dict returned by `adjust_power_for_garmin`; the optional
`"forced_reason"` key becomes an `Option` field. -/
structure AdjustResult where
  original : List Char
  adjusted : List Char
  adjustment : PowerAdjustment
  forced_reason : Option (List Char)
deriving DecidableEq, Repr

/-- `re.search(r'(\d+)\s*à\s*(\d+)', s)` attempted at the head of `s`:
a maximal digit run, optional whitespace, `à`, optional whitespace, a maximal
digit run.  (No backtracking is needed: shortening either digit run can never
turn a failure into a success, since the following token rejects digits.) -/
def tryPowerAt (l : List Char) : Option (Nat × Nat) :=
  let (d1, r1) := l.span isDigitChar
  if d1 = [] then none
  else
    match r1.dropWhile pyIsSpace with
    | 'à' :: r3 =>
      let (d2, _) := (r3.dropWhile pyIsSpace).span isDigitChar
      if d2 = [] then none else some (digitsToNat d1, digitsToNat d2)
    | _ => none

/-- `re.search(r'(\d+)\s*à\s*(\d+)', s)` with leftmost-match semantics. -/
def searchPowerRange : List Char → Option (Nat × Nat)
  | [] => none
  | c :: cs =>
    match tryPowerAt (c :: cs) with
    | some r => some r
    | none => searchPowerRange cs

/-- `f"{min_power}à{max_power}"`. -/
def fmtRange (lo hi : Nat) : List Char :=
  natToChars lo ++ 'à' :: natToChars hi

/-- `adjust_power_for_garmin(power_str, phase, is_home_trainer, warmup_index)`:
the four rules of the source, in order — unparseable power returned unchanged,
HT warmup forced to the standard sequence, HT cooldown forced to `175à180`,
`Corps de séance` offset by `+15`, anything else unchanged. -/
def adjust_power_for_garmin (power_str phase : List Char)
    (is_home_trainer : Bool) (warmup_index : Option Nat) : AdjustResult :=
  match searchPowerRange power_str with
  | none => ⟨power_str, power_str, .watts 0, none⟩
  | some (min_power, max_power) =>
    let original := fmtRange min_power max_power
    if is_home_trainer &&
        (containsSub (pyLower phase) "échauffement".data ||
          containsSub (pyLower phase) "echauffement".data) then
      match warmup_index with
      | some idx =>
        if idx < HT_WARMUP_STANDARD.length then
          let forced_power := (HT_WARMUP_STANDARD.getD idx ⟨[], []⟩).power
          ⟨original, forced_power, .forced,
            some ("Échauffement HT bloc ".data ++ natToChars (idx + 1) ++
              "/4 toujours ".data ++ forced_power ++ "W".data)⟩
        else
          ⟨original, (HT_WARMUP_STANDARD.getD 0 ⟨[], []⟩).power, .forced,
            some "Échauffement HT toujours selon séquence standard".data⟩
      | none =>
        ⟨original, (HT_WARMUP_STANDARD.getD 0 ⟨[], []⟩).power, .forced,
          some "Échauffement HT toujours selon séquence standard".data⟩
    else if is_home_trainer && containsSub (pyLower phase) "récupération".data then
      ⟨original, "175à180".data, .forced,
        some "Récupération HT toujours 175-180W".data⟩
    else if containsSub (pyLower phase) "corps de séance".data then
      ⟨original, fmtRange (min_power + 15) (max_power + 15), .watts 15, none⟩
    else
      ⟨original, original, .watts 0, none⟩

/-- Claim C2 — for any cycling `Corps de séance` (Body) interval on the indoor
trainer whose document power string parses as the range `(lo, hi)`,
`adjust_power_for_garmin` returns the range `(lo+15, hi+15)` with the fixed
offset `15` as its adjustment. -/
theorem adjust_power_body_offset (power : List Char) (lo hi : Nat)
    (hp : searchPowerRange power = some (lo, hi)) :
    adjust_power_for_garmin power "Corps de séance".data true none
      = ⟨fmtRange lo hi, fmtRange (lo + 15) (hi + 15), .watts 15, none⟩ := by
  unfold adjust_power_for_garmin
  rw [hp]
  rfl

/-- Witness for C2 at the concrete document power `"220à230"`. -/
theorem adjust_power_body_offset_witness :
    searchPowerRange "220à230".data = some (220, 230) ∧
    adjust_power_for_garmin "220à230".data "Corps de séance".data true none
      = ⟨fmtRange 220 230, fmtRange 235 245, .watts 15, none⟩ :=
  ⟨by decide, adjust_power_body_offset "220à230".data 220 230 (by decide)⟩

/-- Claim C10 — when the power string holds no `<digits> à <digits>` range,
`adjust_power_for_garmin` returns it unchanged with adjustment `0`, for every
phase, every indoor-trainer flag and every warmup index: all forcing and
offset rules are bypassed. -/
theorem adjust_power_unparseable (power phase : List Char) (ht : Bool)
    (idx : Option Nat) (hp : searchPowerRange power = none) :
    adjust_power_for_garmin power phase ht idx
      = ⟨power, power, .watts 0, none⟩ := by
  unfold adjust_power_for_garmin
  rw [hp]

/-- Witness for C10 at the concrete power string `"libre"`, Warmup phase,
indoor trainer on, warmup index 0. -/
theorem adjust_power_unparseable_witness :
    searchPowerRange "libre".data = none ∧
    adjust_power_for_garmin "libre".data "Echauffement".data true (some 0)
      = ⟨"libre".data, "libre".data, .watts 0, none⟩ :=
  ⟨by decide,
    adjust_power_unparseable "libre".data "Echauffement".data true (some 0)
      (by decide)⟩

/-! ## Cycling interval records (src/pdf_parser_v3.py)

The interval dicts built by `TriathlonPDFParserV3`; optional dict keys
(`forced_reason`, `position`, `is_sub_interval`, `repetition_iteration`,
`repetition_total`) become `Option`/defaulted fields. -/

structure Interval where
  phase : List Char
  duration : List Char
  cadence_rpm : List Char
  cadence_upload_to_garmin : Bool
  power_watts_original : List Char
  power_watts : List Char
  power_adjustment_w : PowerAdjustment
  forced_reason : Option (List Char) := none
  position : Option (List Char) := none
  is_sub_interval : Bool := false
  repetition_iteration : Option Nat := none
  repetition_total : Option Nat := none
deriving DecidableEq, Repr

/-! ### Hand-compiled regexes

Each `try...At` function attempts a regex at the head of the character list;
each `search...` scans left to right, which is `re.search`'s leftmost-match
rule.  Backtracking is unnecessary in these patterns: every spot where the
regex engine could backtrack (shrinking a greedy `\d+`, `[^)]+` or `\s*`) is
followed by a token that rejects the relinquished character class. -/

/-- `\d{2}:\d{2}` at the head; returns the matched text and the rest. -/
def matchDuration2 (l : List Char) : Option (List Char × List Char) :=
  match l with
  | a :: b :: ':' :: c :: d :: rest =>
    if isDigitChar a && isDigitChar b && isDigitChar c && isDigitChar d then
      some ([a, b, ':', c, d], rest)
    else none
  | _ => none

/-- `\d:\d{2}` at the head. -/
def matchDuration1 (l : List Char) : Option (List Char × List Char) :=
  match l with
  | a :: ':' :: c :: d :: rest =>
    if isDigitChar a && isDigitChar c && isDigitChar d then
      some ([a, ':', c, d], rest)
    else none
  | _ => none

/-- `\d{1,2}:\d{2}` at the head (greedy: two digits preferred; the
alternatives are mutually exclusive, so no further backtracking arises). -/
def matchDuration12 (l : List Char) : Option (List Char × List Char) :=
  match matchDuration2 l with
  | some r => some r
  | none => matchDuration1 l

/-- The capture group `(\d+\s*à\s*\d+)` at the head; returns the raw matched
text (spaces included, as the source strips them afterwards with
`.replace(' ', '')`) and the rest. -/
def matchRangeCap (l : List Char) : Option (List Char × List Char) :=
  let (d1, r1) := l.span isDigitChar
  if d1 = [] then none
  else
    let (s1, r2) := r1.span pyIsSpace
    match r2 with
    | 'à' :: r3 =>
      let (s2, r4) := r3.span pyIsSpace
      let (d2, r5) := r4.span isDigitChar
      if d2 = [] then none else some (d1 ++ s1 ++ 'à' :: (s2 ++ d2), r5)
    | _ => none

/-- `\(([^)]+)\)` at the head; returns the group and the rest. -/
def matchParen (l : List Char) : Option (List Char × List Char) :=
  match l with
  | '(' :: r1 =>
    let (content, r2) := r1.span (fun c => decide (c ≠ ')'))
    if content = [] then none
    else
      match r2 with
      | ')' :: r3 => some (content, r3)
      | _ => none
  | _ => none

/-- `lit` as a literal prefix; returns the rest. -/
def matchLiteral (lit l : List Char) : Option (List Char) :=
  if lit.isPrefixOf l then some (l.drop lit.length) else none

/-- `(\d{1,2}:\d{2})\s+(\d+\s*à\s*\d+)\s+(\d+\s*à\s*\d+)` at the head:
duration, cadence group, power group. -/
def trySubIntervalAt (l : List Char) : Option (List Char × List Char × List Char) :=
  match matchDuration12 l with
  | none => none
  | some (dur, r1) =>
    let (sp1, r2) := r1.span pyIsSpace
    if sp1 = [] then none
    else
      match matchRangeCap r2 with
      | none => none
      | some (cad, r3) =>
        let (sp2, r4) := r3.span pyIsSpace
        if sp2 = [] then none
        else
          match matchRangeCap r4 with
          | none => none
          | some (pow, _) => some (dur, cad, pow)

/-- `re.search` of the plain duration-cadence-power interval pattern. -/
def searchSubInterval : List Char → Option (List Char × List Char × List Char)
  | [] => none
  | c :: cs =>
    match trySubIntervalAt (c :: cs) with
    | some r => some r
    | none => searchSubInterval cs

/-- `(\d{2}:\d{2})[*]*\s*\(([^)]+)\)\s+(\d+\s*à\s*\d+)\s+(\d+\s*à\s*\d+)` at
the head: duration, position group, cadence group, power group. -/
def trySimpleIntervalAt (l : List Char) :
    Option (List Char × List Char × List Char × List Char) :=
  match matchDuration2 l with
  | none => none
  | some (dur, r1) =>
    let r2 := r1.dropWhile (fun c => decide (c = '*'))
    let r3 := r2.dropWhile pyIsSpace
    match matchParen r3 with
    | none => none
    | some (pos, r4) =>
      let (sp1, r5) := r4.span pyIsSpace
      if sp1 = [] then none
      else
        match matchRangeCap r5 with
        | none => none
        | some (cad, r6) =>
          let (sp2, r7) := r6.span pyIsSpace
          if sp2 = [] then none
          else
            match matchRangeCap r7 with
            | none => none
            | some (pow, _) => some (dur, pos, cad, pow)

/-- `re.search` of the duration-(position)-cadence-power pattern used by
`_parse_simple_intervals` and `_parse_mixed_intervals`. -/
def searchSimpleInterval :
    List Char → Option (List Char × List Char × List Char × List Char)
  | [] => none
  | c :: cs =>
    match trySimpleIntervalAt (c :: cs) with
    | some r => some r
    | none => searchSimpleInterval cs

/-- `(\d{1,2}:\d{2})\s+\(([^)]+)\)\s+(\d+\s*à\s*\d+)\s+(\d+\s*à\s*\d+)` at
the head, the plain-interval pattern of `_parse_repeat_block_content`. -/
def tryRepeatSimpleAt (l : List Char) :
    Option (List Char × List Char × List Char × List Char) :=
  match matchDuration12 l with
  | none => none
  | some (dur, r1) =>
    let (sp1, r2) := r1.span pyIsSpace
    if sp1 = [] then none
    else
      match matchParen r2 with
      | none => none
      | some (pos, r3) =>
        let (sp2, r4) := r3.span pyIsSpace
        if sp2 = [] then none
        else
          match matchRangeCap r4 with
          | none => none
          | some (cad, r5) =>
            let (sp3, r6) := r5.span pyIsSpace
            if sp3 = [] then none
            else
              match matchRangeCap r6 with
              | none => none
              | some (pow, _) => some (dur, pos, cad, pow)

/-- `re.search` of `tryRepeatSimpleAt`'s pattern. -/
def searchRepeatSimple :
    List Char → Option (List Char × List Char × List Char × List Char)
  | [] => none
  | c :: cs =>
    match tryRepeatSimpleAt (c :: cs) with
    | some r => some r
    | none => searchRepeatSimple cs

/-- `(\d{2}:\d{2})[*]*\s*\(([^)]+)\)\s*décomposées en\s*:` at the head,
returning (duration, position).  `detect_decomposed_block` puts the stars
inside the duration group and then strips them with `.replace('*', '')`;
`_parse_mixed_intervals` keeps them outside the group — both yield the same
star-free duration and the same position group. -/
def tryDecomposedAt (l : List Char) : Option (List Char × List Char) :=
  match matchDuration2 l with
  | none => none
  | some (dur, r1) =>
    let r2 := r1.dropWhile (fun c => decide (c = '*'))
    let r3 := r2.dropWhile pyIsSpace
    match matchParen r3 with
    | none => none
    | some (pos, r4) =>
      let r5 := r4.dropWhile pyIsSpace
      match matchLiteral "décomposées en".data r5 with
      | none => none
      | some r6 =>
        match r6.dropWhile pyIsSpace with
        | ':' :: _ => some (dur, pos)
        | _ => none

/-- `re.search` of the decomposed-block header pattern. -/
def searchDecomposed : List Char → Option (List Char × List Char)
  | [] => none
  | c :: cs =>
    match tryDecomposedAt (c :: cs) with
    | some r => some r
    | none => searchDecomposed cs

/-- `(\d+)\s*x\s*\(([^)]+)\)\s*:` at the head; returns the repeat count and
the number of characters the match consumed. -/
def tryRepetitionAt (l : List Char) : Option (Nat × Nat) :=
  let (d, r1) := l.span isDigitChar
  if d = [] then none
  else
    match r1.dropWhile pyIsSpace with
    | 'x' :: r3 =>
      let r4 := r3.dropWhile pyIsSpace
      match matchParen r4 with
      | none => none
      | some (_, r5) =>
        match r5.dropWhile pyIsSpace with
        | ':' :: r7 => some (digitsToNat d, l.length - r7.length)
        | _ => none
    | _ => none

/-- `re.search(r'(\d+)\s*x\s*\(([^)]+)\)\s*:', text)` returning
(repeat count, match start, match end). -/
def searchRepetitionFrom (pos : Nat) : List Char → Option (Nat × Nat × Nat)
  | [] => none
  | c :: cs =>
    match tryRepetitionAt (c :: cs) with
    | some (n, len) => some (n, pos, pos + len)
    | none => searchRepetitionFrom (pos + 1) cs

def searchRepetition (l : List Char) : Option (Nat × Nat × Nat) :=
  searchRepetitionFrom 0 l

/-- `\n(\d{2}:\d{2}[*]{3,})` at the head. -/
def tryEndRepeatAt (l : List Char) : Bool :=
  match l with
  | '\n' :: rest =>
    match matchDuration2 rest with
    | some (_, r1) =>
      match r1 with
      | '*' :: '*' :: '*' :: _ => true
      | _ => false
    | none => false
  | _ => false

/-- `re.search(r'\n(\d{2}:\d{2}[*]{3,})', text)` returning the match start. -/
def searchEndRepeatFrom (pos : Nat) : List Char → Option Nat
  | [] => none
  | c :: cs =>
    if tryEndRepeatAt (c :: cs) then some pos
    else searchEndRepeatFrom (pos + 1) cs

def searchEndRepeat (l : List Char) : Option Nat := searchEndRepeatFrom 0 l

/-! ### Line-level parsers (src/pdf_parser_v3.py) -/

/-- `parse_decomposed_sub_intervals(text, parent_position, is_home_trainer,
current_phase)`: one interval per line matching the
duration-cadence-power pattern, inheriting the parent's position. -/
def parse_decomposed_sub_intervals (text parent_position : List Char)
    (is_home_trainer : Bool) (current_phase : List Char) : List Interval :=
  (pySplitOn '\n' text).filterMap (fun line =>
    match searchSubInterval (pyStrip line) with
    | none => none
    | some (duration, cadRaw, powRaw) =>
      let pd := adjust_power_for_garmin (dropSpaces powRaw) current_phase
        is_home_trainer none
      some { phase := current_phase, duration := duration,
             cadence_rpm := dropSpaces cadRaw,
             cadence_upload_to_garmin := false,
             power_watts_original := pd.original, power_watts := pd.adjusted,
             power_adjustment_w := pd.adjustment,
             forced_reason := pd.forced_reason,
             position := some parent_position, is_sub_interval := true })

/-- `_parse_simple_intervals(text, phase, is_home_trainer)`. -/
def parse_simple_intervals (text phase : List Char)
    (is_home_trainer : Bool) : List Interval :=
  (pySplitOn '\n' text).filterMap (fun line =>
    match searchSimpleInterval (pyStrip line) with
    | none => none
    | some (duration, position, cadRaw, powRaw) =>
      let pd := adjust_power_for_garmin (dropSpaces powRaw) phase
        is_home_trainer none
      some { phase := phase, duration := duration,
             cadence_rpm := dropSpaces cadRaw,
             cadence_upload_to_garmin := false,
             power_watts_original := pd.original, power_watts := pd.adjusted,
             power_adjustment_w := pd.adjustment,
             position := some position })

/-- The inner `while` of `_parse_mixed_intervals`'s decomposed branch:
consume following lines as sub-intervals of `position` until a line holding
`décomposées en` or both `(` and `Position` is reached (that line is handed
back to the outer loop, matching the `break`/`continue` of the source). -/
def consumeMixedSubs (phase : List Char) (is_home_trainer : Bool)
    (position : List Char) :
    List (List Char) → (List Interval × List (List Char))
  | [] => ([], [])
  | line :: rest =>
    let sl := pyStrip line
    if containsSub sl "décomposées en".data ||
        (sl.contains '(' && containsSub sl "Position".data) then
      ([], line :: rest)
    else
      match searchSubInterval sl with
      | some (duration, cadRaw, powRaw) =>
        let pd := adjust_power_for_garmin (dropSpaces powRaw) phase
          is_home_trainer none
        let iv : Interval :=
          { phase := phase, duration := duration,
            cadence_rpm := dropSpaces cadRaw,
            cadence_upload_to_garmin := false,
            power_watts_original := pd.original, power_watts := pd.adjusted,
            power_adjustment_w := pd.adjustment,
            position := some position, is_sub_interval := true }
        ((consumeMixedSubs phase is_home_trainer position rest).1.cons iv,
          (consumeMixedSubs phase is_home_trainer position rest).2)
      | none => consumeMixedSubs phase is_home_trainer position rest

theorem consumeMixedSubs_rest_length_le (phase : List Char)
    (is_home_trainer : Bool) (position : List Char) :
    ∀ lines : List (List Char),
      (consumeMixedSubs phase is_home_trainer position lines).2.length
        ≤ lines.length := by
  intro lines
  induction lines with
  | nil => simp [consumeMixedSubs]
  | cons line rest ih =>
    rw [consumeMixedSubs]
    dsimp only
    split
    · simp
    · split
      · simpa using Nat.le_succ_of_le ih
      · exact Nat.le_succ_of_le ih

/-- `_parse_mixed_intervals`'s main loop over the split lines. -/
def goMixed (phase : List Char) (is_home_trainer : Bool) :
    List (List Char) → List Interval
  | [] => []
  | line :: rest =>
    let sl := pyStrip line
    match searchDecomposed sl with
    | some (_, position) =>
      (consumeMixedSubs phase is_home_trainer position rest).1 ++
        goMixed phase is_home_trainer
          (consumeMixedSubs phase is_home_trainer position rest).2
    | none =>
      match searchSimpleInterval sl with
      | some (duration, position, cadRaw, powRaw) =>
        let pd := adjust_power_for_garmin (dropSpaces powRaw) phase
          is_home_trainer none
        { phase := phase, duration := duration,
          cadence_rpm := dropSpaces cadRaw,
          cadence_upload_to_garmin := false,
          power_watts_original := pd.original, power_watts := pd.adjusted,
          power_adjustment_w := pd.adjustment,
          position := some position : Interval }
          :: goMixed phase is_home_trainer rest
      | none => goMixed phase is_home_trainer rest
  termination_by lines => lines.length
  decreasing_by
  all_goals
    simp only [List.length_cons]
    first
      | exact Nat.lt_succ_of_le (consumeMixedSubs_rest_length_le _ _ _ _)
      | omega

/-- `_parse_mixed_intervals(text, phase, is_home_trainer)`. -/
def parse_mixed_intervals (text phase : List Char)
    (is_home_trainer : Bool) : List Interval :=
  goMixed phase is_home_trainer (pySplitOn '\n' text)

/-- The inner `while` of `_parse_repeat_block_content`'s decomposed branch;
its stop test is the substring pair `décomposées en` / `(Position`. -/
def consumeRepeatSubs (phase : List Char) (is_home_trainer : Bool)
    (position : List Char) :
    List (List Char) → (List Interval × List (List Char))
  | [] => ([], [])
  | line :: rest =>
    let sl := pyStrip line
    if containsSub sl "décomposées en".data ||
        containsSub sl "(Position".data then
      ([], line :: rest)
    else
      match searchSubInterval sl with
      | some (duration, cadRaw, powRaw) =>
        let pd := adjust_power_for_garmin (dropSpaces powRaw) phase
          is_home_trainer none
        let iv : Interval :=
          { phase := phase, duration := duration,
            cadence_rpm := dropSpaces cadRaw,
            cadence_upload_to_garmin := false,
            power_watts_original := pd.original, power_watts := pd.adjusted,
            power_adjustment_w := pd.adjustment,
            position := some position, is_sub_interval := true }
        ((consumeRepeatSubs phase is_home_trainer position rest).1.cons iv,
          (consumeRepeatSubs phase is_home_trainer position rest).2)
      | none => consumeRepeatSubs phase is_home_trainer position rest

theorem consumeRepeatSubs_rest_length_le (phase : List Char)
    (is_home_trainer : Bool) (position : List Char) :
    ∀ lines : List (List Char),
      (consumeRepeatSubs phase is_home_trainer position lines).2.length
        ≤ lines.length := by
  intro lines
  induction lines with
  | nil => simp [consumeRepeatSubs]
  | cons line rest ih =>
    rw [consumeRepeatSubs]
    dsimp only
    split
    · simp
    · split
      · simpa using Nat.le_succ_of_le ih
      · exact Nat.le_succ_of_le ih

/-- `_parse_repeat_block_content`'s main loop over the split lines (blank
lines skipped, decomposed blocks consumed inline, plain lines matched with
the parenthesised-position pattern). -/
def goRepeatContent (phase : List Char) (is_home_trainer : Bool) :
    List (List Char) → List Interval
  | [] => []
  | line :: rest =>
    let sl := pyStrip line
    if sl = [] then goRepeatContent phase is_home_trainer rest
    else
      match searchDecomposed sl with
      | some (_, position) =>
        (consumeRepeatSubs phase is_home_trainer position rest).1 ++
          goRepeatContent phase is_home_trainer
            (consumeRepeatSubs phase is_home_trainer position rest).2
      | none =>
        match searchRepeatSimple sl with
        | some (duration, position, cadRaw, powRaw) =>
          let pd := adjust_power_for_garmin (dropSpaces powRaw) phase
            is_home_trainer none
          { phase := phase, duration := duration,
            cadence_rpm := dropSpaces cadRaw,
            cadence_upload_to_garmin := false,
            power_watts_original := pd.original, power_watts := pd.adjusted,
            power_adjustment_w := pd.adjustment,
            position := some position : Interval }
            :: goRepeatContent phase is_home_trainer rest
        | none => goRepeatContent phase is_home_trainer rest
  termination_by lines => lines.length
  decreasing_by
  all_goals
    simp only [List.length_cons]
    first
      | exact Nat.lt_succ_of_le (consumeRepeatSubs_rest_length_le _ _ _ _)
      | omega

/-- `_parse_repeat_block_content(text, phase, is_home_trainer)`. -/
def parse_repeat_block_content (text phase : List Char)
    (is_home_trainer : Bool) : List Interval :=
  goRepeatContent phase is_home_trainer (pySplitOn '\n' text)

/-! ### `_parse_cycling_full_text` (src/pdf_parser_v3.py, lines 427-578) -/

/-- The repetition-expansion double loop (lines 528-533): `repeat_count`
tagged copies of one iteration's intervals, iteration indices 1-based. -/
def expandRepetition (repeat_count : Nat) (singles : List Interval) :
    List Interval :=
  ((List.range repeat_count).map (fun iteration =>
    singles.map (fun interval =>
      { interval with repetition_iteration := some (iteration + 1),
                      repetition_total := some repeat_count }))).flatten

/-- The four forced Home-Trainer warmup intervals (lines 437-448). -/
def htWarmupIntervals : List Interval :=
  HT_WARMUP_STANDARD.enum.map (fun p =>
    { phase := "Echauffement".data, duration := p.2.duration,
      cadence_rpm := "libre".data, cadence_upload_to_garmin := false,
      power_watts_original := "standard HT".data, power_watts := p.2.power,
      power_adjustment_w := .forced,
      forced_reason := some ("Échauffement HT standard bloc ".data ++
        natToChars (p.1 + 1) ++ "/4".data) })

/-- The two forced Home-Trainer recovery intervals (lines 556-576). -/
def htRecoveryIntervals : List Interval :=
  [{ phase := "Récupération".data, duration := "2:00".data,
     cadence_rpm := "libre".data, cadence_upload_to_garmin := false,
     power_watts_original := "standard HT".data, power_watts := "175à180".data,
     power_adjustment_w := .forced,
     forced_reason := some "Récupération HT standard bloc 1/2".data },
   { phase := "Récupération".data, duration := "2:00".data,
     cadence_rpm := "libre".data, cadence_upload_to_garmin := false,
     power_watts_original := "standard HT".data, power_watts := "175à180".data,
     power_adjustment_w := .forced,
     forced_reason := some "Récupération HT standard bloc 2/2".data }]

/-- `before_text[before_text.rfind('Echauffement'):]` — with Python's quirk
that a failed `rfind` returns `-1`, so the slice keeps only the last
character. -/
def sliceFromLastEchauffement (s : List Char) : List Char :=
  match rfindSub s "Echauffement".data with
  | some i => s.drop i
  | none => s.drop (s.length - 1)

/-- The `corps_full_text` slicing of `_parse_cycling_full_text`
(lines 450-475): with a repetition anywhere in the text, splice from the last
`Echauffement` before it up to the first `Récupération` after it; without
one, take the section between `Corps de séance` and `Récupération`. -/
def corps_full_text_of (text : List Char) : Option (List Char) :=
  match searchRepetition text with
  | some (_, rep_start, _) =>
    let before_text := text.take rep_start
    match findSub (text.drop rep_start) "Récupération".data with
    | some recovery_idx =>
      some (sliceFromLastEchauffement before_text ++
        (text.drop rep_start).take recovery_idx)
    | none => some (before_text ++ text.drop rep_start)
  | none =>
    match findSub text "Corps de séance".data with
    | some ci =>
      let tail := text.drop (ci + ("Corps de séance".data).length)
      match findSub tail "Récupération".data with
      | some ri => some (tail.take ri)
      | none => none
    | none => none

/-- The `Corps de séance` intervals produced by `_parse_cycling_full_text`
(lines 477-553): split the corps text around the repetition declaration,
parse the three parts, expand the repetition. -/
def parse_corps_intervals (text : List Char) (is_home_trainer : Bool) :
    List Interval :=
  match corps_full_text_of text with
  | none => []
  | some corps =>
    match searchRepetition corps with
    | some (repeat_count, rep_start, rep_end) =>
      let before_intervals := parse_mixed_intervals (corps.take rep_start)
        "Corps de séance".data is_home_trainer
      let remaining := corps.drop rep_end
      let repeat_content :=
        match searchEndRepeat remaining with
        | some p => remaining.take p
        | none => remaining
      let after_text :=
        match searchEndRepeat remaining with
        | some p => remaining.drop p
        | none => []
      let singles := parse_repeat_block_content repeat_content
        "Corps de séance".data is_home_trainer
      let after_intervals :=
        if after_text = [] then []
        else parse_mixed_intervals after_text "Corps de séance".data
          is_home_trainer
      before_intervals ++ expandRepetition repeat_count singles ++
        after_intervals
    | none =>
      parse_simple_intervals corps "Corps de séance".data is_home_trainer

/-- `_parse_cycling_full_text(text, is_home_trainer)`: forced HT warmup,
corps-section intervals, forced HT recovery. -/
def parse_cycling_full_text (text : List Char) (is_home_trainer : Bool) :
    List Interval :=
  (if is_home_trainer then htWarmupIntervals else []) ++
    parse_corps_intervals text is_home_trainer ++
    (if is_home_trainer then htRecoveryIntervals else [])

/-! ### Every corps-section helper tags its intervals with the phase it was
given -/

theorem parse_decomposed_sub_intervals_phase (text pos : List Char)
    (ht : Bool) (p : List Char) :
    ∀ iv ∈ parse_decomposed_sub_intervals text pos ht p, iv.phase = p := by
  intro iv hiv
  rw [parse_decomposed_sub_intervals, List.mem_filterMap] at hiv
  obtain ⟨line, _, hline⟩ := hiv
  cases hs : searchSubInterval (pyStrip line) with
  | none => rw [hs] at hline; cases hline
  | some t =>
    obtain ⟨d, c, pw⟩ := t
    rw [hs] at hline
    cases hline
    rfl

theorem parse_simple_intervals_phase (text p : List Char) (ht : Bool) :
    ∀ iv ∈ parse_simple_intervals text p ht, iv.phase = p := by
  intro iv hiv
  rw [parse_simple_intervals, List.mem_filterMap] at hiv
  obtain ⟨line, _, hline⟩ := hiv
  cases hs : searchSimpleInterval (pyStrip line) with
  | none => rw [hs] at hline; cases hline
  | some t =>
    obtain ⟨d, pos, c, pw⟩ := t
    rw [hs] at hline
    cases hline
    rfl

theorem consumeMixedSubs_phase (p : List Char) (ht : Bool) (pos : List Char) :
    ∀ lines, ∀ iv ∈ (consumeMixedSubs p ht pos lines).1, iv.phase = p := by
  intro lines
  induction lines with
  | nil => intro iv hiv; simp [consumeMixedSubs] at hiv
  | cons line rest ih =>
    intro iv hiv
    rw [consumeMixedSubs] at hiv
    dsimp only at hiv
    split at hiv
    · simp at hiv
    · split at hiv
      · simp only [List.cons] at hiv
        rcases List.mem_cons.mp hiv with rfl | h
        · rfl
        · exact ih iv h
      · exact ih iv hiv

theorem consumeRepeatSubs_phase (p : List Char) (ht : Bool) (pos : List Char) :
    ∀ lines, ∀ iv ∈ (consumeRepeatSubs p ht pos lines).1, iv.phase = p := by
  intro lines
  induction lines with
  | nil => intro iv hiv; simp [consumeRepeatSubs] at hiv
  | cons line rest ih =>
    intro iv hiv
    rw [consumeRepeatSubs] at hiv
    dsimp only at hiv
    split at hiv
    · simp at hiv
    · split at hiv
      · simp only [List.cons] at hiv
        rcases List.mem_cons.mp hiv with rfl | h
        · rfl
        · exact ih iv h
      · exact ih iv hiv

theorem goMixed_phase (p : List Char) (ht : Bool) :
    ∀ lines, ∀ iv ∈ goMixed p ht lines, iv.phase = p := by
  intro lines
  induction lines using goMixed.induct p ht with
  | case1 => intro iv hiv; simp [goMixed] at hiv
  | case2 line rest v1 v2 v3 v4 v5 =>
    intro iv hiv
    rw [goMixed] at hiv
    have v4' : searchDecomposed (pyStrip line) = some (v2, v3) := v4
    rw [v4'] at hiv
    rcases List.mem_append.mp hiv with h | h
    · exact consumeMixedSubs_phase p ht v3 rest iv h
    · exact v5 iv h
  | case3 line rest v1 v4 vd vp vc vw v6 v5 =>
    intro iv hiv
    rw [goMixed] at hiv
    have v4' : searchDecomposed (pyStrip line) = none := v4
    have v6' : searchSimpleInterval (pyStrip line) = some (vd, vp, vc, vw) := v6
    rw [v4', v6'] at hiv
    rcases List.mem_cons.mp hiv with rfl | h
    · rfl
    · exact v5 iv h
  | case4 line rest v1 v4 v6 v5 =>
    intro iv hiv
    rw [goMixed] at hiv
    have v4' : searchDecomposed (pyStrip line) = none := v4
    have v6' : searchSimpleInterval (pyStrip line) = none := v6
    rw [v4', v6'] at hiv
    exact v5 iv hiv

theorem goRepeatContent_phase (p : List Char) (ht : Bool) :
    ∀ lines, ∀ iv ∈ goRepeatContent p ht lines, iv.phase = p := by
  intro lines
  induction lines using goRepeatContent.induct p ht with
  | case1 => intro iv hiv; simp [goRepeatContent] at hiv
  | case2 line rest v1 hblank ih =>
    intro iv hiv
    rw [goRepeatContent] at hiv
    have hblank' : pyStrip line = [] := hblank
    rw [if_pos hblank'] at hiv
    exact ih iv hiv
  | case3 line rest v1 hblank v2 v3 v4 ih =>
    intro iv hiv
    rw [goRepeatContent] at hiv
    have hblank' : ¬pyStrip line = [] := hblank
    rw [if_neg hblank'] at hiv
    have v4' : searchDecomposed (pyStrip line) = some (v2, v3) := v4
    rw [v4'] at hiv
    rcases List.mem_append.mp hiv with h | h
    · exact consumeRepeatSubs_phase p ht v3 rest iv h
    · exact ih iv h
  | case4 line rest v1 hblank v4 vd vp vc vw v6 ih =>
    intro iv hiv
    rw [goRepeatContent] at hiv
    have hblank' : ¬pyStrip line = [] := hblank
    rw [if_neg hblank'] at hiv
    have v4' : searchDecomposed (pyStrip line) = none := v4
    have v6' : searchRepeatSimple (pyStrip line) = some (vd, vp, vc, vw) := v6
    rw [v4', v6'] at hiv
    rcases List.mem_cons.mp hiv with rfl | h
    · rfl
    · exact ih iv h
  | case5 line rest v1 hblank v4 v6 ih =>
    intro iv hiv
    rw [goRepeatContent] at hiv
    have hblank' : ¬pyStrip line = [] := hblank
    rw [if_neg hblank'] at hiv
    have v4' : searchDecomposed (pyStrip line) = none := v4
    have v6' : searchRepeatSimple (pyStrip line) = none := v6
    rw [v4', v6'] at hiv
    exact ih iv hiv

theorem expandRepetition_phase (n : Nat) (singles : List Interval)
    (p : List Char) (h : ∀ iv ∈ singles, iv.phase = p) :
    ∀ iv ∈ expandRepetition n singles, iv.phase = p := by
  intro iv hiv
  rw [expandRepetition, List.mem_flatten] at hiv
  obtain ⟨l, hl, hvl⟩ := hiv
  rw [List.mem_map] at hl
  obtain ⟨k, _, rfl⟩ := hl
  rw [List.mem_map] at hvl
  obtain ⟨j, hj, rfl⟩ := hvl
  exact h j hj

theorem parse_mixed_intervals_phase (text p : List Char) (ht : Bool) :
    ∀ iv ∈ parse_mixed_intervals text p ht, iv.phase = p := by
  intro iv hiv
  exact goMixed_phase p ht _ iv hiv

theorem parse_repeat_block_content_phase (text p : List Char) (ht : Bool) :
    ∀ iv ∈ parse_repeat_block_content text p ht, iv.phase = p := by
  intro iv hiv
  exact goRepeatContent_phase p ht _ iv hiv

/-- Every interval emitted by the corps-section stage carries phase
`Corps de séance`, whatever the input text. -/
theorem parse_corps_intervals_phase (text : List Char) (ht : Bool) :
    ∀ iv ∈ parse_corps_intervals text ht,
      iv.phase = "Corps de séance".data := by
  intro iv hiv
  rw [parse_corps_intervals] at hiv
  cases hcorps : corps_full_text_of text with
  | none => rw [hcorps] at hiv; cases hiv
  | some corps =>
    rw [hcorps] at hiv
    dsimp only at hiv
    cases hrep : searchRepetition corps with
    | none =>
      rw [hrep] at hiv
      exact parse_simple_intervals_phase corps _ ht iv hiv
    | some t =>
      obtain ⟨cnt, rs, re⟩ := t
      rw [hrep] at hiv
      dsimp only at hiv
      rcases List.mem_append.mp hiv with h | h
      · rcases List.mem_append.mp h with h2 | h2
        · exact parse_mixed_intervals_phase _ _ ht iv h2
        · exact expandRepetition_phase cnt _ _
            (parse_repeat_block_content_phase _ _ ht) iv h2
      · split at h
        · cases h
        · exact parse_mixed_intervals_phase _ _ ht iv h

theorem parse_cycling_full_text_ht (text : List Char) :
    parse_cycling_full_text text true =
      htWarmupIntervals ++ parse_corps_intervals text true ++
        htRecoveryIntervals := by
  rw [parse_cycling_full_text]
  simp

/-- Claim C1 — for every cycling workout text parsed with the indoor-trainer
flag on, the intervals tagged `Echauffement` (Warmup) are exactly the fixed
four forced standard blocks (2:30 at 96à106, 2:30 at 130à136, 5:00 at
156à166, 5:00 at 180à190) and the intervals tagged `Récupération` (Cooldown)
are exactly the two forced 2:00 blocks at 175à180, whatever warmup or
cooldown text the document contains. -/
theorem indoor_trainer_warmup_cooldown_override (text : List Char) :
    (parse_cycling_full_text text true).filter
        (fun iv => decide (iv.phase = "Echauffement".data))
      = htWarmupIntervals
    ∧ (parse_cycling_full_text text true).filter
        (fun iv => decide (iv.phase = "Récupération".data))
      = htRecoveryIntervals := by
  rw [parse_cycling_full_text_ht, List.filter_append, List.filter_append,
    List.filter_append, List.filter_append]
  have h2e : (parse_corps_intervals text true).filter
      (fun iv => decide (iv.phase = "Echauffement".data)) = [] := by
    rw [List.filter_eq_nil_iff]
    intro a ha
    rw [parse_corps_intervals_phase text true a ha]
    decide
  have h2r : (parse_corps_intervals text true).filter
      (fun iv => decide (iv.phase = "Récupération".data)) = [] := by
    rw [List.filter_eq_nil_iff]
    intro a ha
    rw [parse_corps_intervals_phase text true a ha]
    decide
  rw [h2e, h2r]
  constructor
  · rw [show htWarmupIntervals.filter
        (fun iv => decide (iv.phase = "Echauffement".data))
          = htWarmupIntervals from by decide,
      show htRecoveryIntervals.filter
        (fun iv => decide (iv.phase = "Echauffement".data)) = [] from by decide]
    simp
  · rw [show htWarmupIntervals.filter
        (fun iv => decide (iv.phase = "Récupération".data)) = [] from by decide,
      show htRecoveryIntervals.filter
        (fun iv => decide (iv.phase = "Récupération".data))
          = htRecoveryIntervals from by decide]
    simp

/-- Claim C3 — a repetition declaration `3 x (A-B):` whose block parses to the
two intervals `A` and `B` is expanded by the parser's emission loop into
exactly six records, ordered A,B,A,B,A,B with 1-based iteration tags and
`repetition_total = 3` on every copy, the copies otherwise identical. -/
theorem repetition_expansion_three (A B : Interval) :
    expandRepetition 3 [A, B] =
      [{ A with repetition_iteration := some 1, repetition_total := some 3 },
       { B with repetition_iteration := some 1, repetition_total := some 3 },
       { A with repetition_iteration := some 2, repetition_total := some 3 },
       { B with repetition_iteration := some 2, repetition_total := some 3 },
       { A with repetition_iteration := some 3, repetition_total := some 3 },
       { B with repetition_iteration := some 3, repetition_total := some 3 }] := by
  rfl

/-- When every following line avoids the inner loop's stop tokens and matches
the sub-interval pattern, `consumeMixedSubs` emits exactly one interval per
line, each positioned with the parent label, and consumes all the lines. -/
theorem consumeMixedSubs_all_match (p : List Char) (ht : Bool)
    (pos : List Char) :
    ∀ subs : List (List Char),
      (∀ l ∈ subs, (containsSub (pyStrip l) "décomposées en".data ||
          ((pyStrip l).contains '(' &&
            containsSub (pyStrip l) "Position".data)) = false) →
      (∀ l ∈ subs, (searchSubInterval (pyStrip l)).isSome) →
      (consumeMixedSubs p ht pos subs).1.length = subs.length ∧
      (consumeMixedSubs p ht pos subs).2 = [] ∧
      ∀ iv ∈ (consumeMixedSubs p ht pos subs).1, iv.position = some pos := by
  intro subs
  induction subs with
  | nil =>
    intro _ _
    refine ⟨rfl, rfl, ?_⟩
    intro iv hiv
    simp [consumeMixedSubs] at hiv
  | cons line rest ih =>
    intro hstop hmatch
    obtain ⟨h1, h2, h3⟩ := ih (fun l hl => hstop l (by simp [hl]))
      (fun l hl => hmatch l (by simp [hl]))
    obtain ⟨t, heq⟩ := Option.isSome_iff_exists.mp (hmatch line (by simp))
    obtain ⟨d, c, w⟩ := t
    rw [consumeMixedSubs]
    dsimp only
    rw [if_neg (by rw [hstop line (by simp)]; simp), heq]
    refine ⟨?_, h2, ?_⟩
    · simpa using h1
    · intro iv hiv
      rcases List.mem_cons.mp hiv with rfl | h
      · rfl
      · exact h3 iv h

/-- Claim C8 — a decomposed-block parent line followed by sub-interval lines
makes `_parse_mixed_intervals`'s loop emit exactly one interval per sub-line,
each inheriting the parent's position label, and no interval at all for the
parent line itself. -/
theorem decomposed_block_emission (p : List Char) (ht : Bool)
    (parent dur pos : List Char) (subs : List (List Char))
    (hparent : searchDecomposed (pyStrip parent) = some (dur, pos))
    (hstop : ∀ l ∈ subs, (containsSub (pyStrip l) "décomposées en".data ||
        ((pyStrip l).contains '(' &&
          containsSub (pyStrip l) "Position".data)) = false)
    (hmatch : ∀ l ∈ subs, (searchSubInterval (pyStrip l)).isSome) :
    (goMixed p ht (parent :: subs)).length = subs.length ∧
    ∀ iv ∈ goMixed p ht (parent :: subs), iv.position = some pos := by
  obtain ⟨h1, h2, h3⟩ := consumeMixedSubs_all_match p ht pos subs hstop hmatch
  rw [goMixed]
  dsimp only
  rw [hparent]
  dsimp only
  rw [h2]
  rw [show goMixed p ht [] = [] from by rw [goMixed]]
  rw [List.append_nil]
  exact ⟨h1, h3⟩

/-- Witness for C8: the spec's own example — parent
`"08:00 (Position haute) décomposées en :"` followed by two sub-lines —
emits exactly the two sub-intervals, both positioned `"Position haute"`. -/
theorem decomposed_block_emission_witness :
    (goMixed "Corps de séance".data true
        ("08:00 (Position haute) décomposées en :".data ::
          ["03:00 70 à 75 220 à 230".data,
           "01:00 90 à 95 260 à 270".data])).length = 2 ∧
    ∀ iv ∈ goMixed "Corps de séance".data true
        ("08:00 (Position haute) décomposées en :".data ::
          ["03:00 70 à 75 220 à 230".data,
           "01:00 90 à 95 260 à 270".data]),
      iv.position = some "Position haute".data :=
  decomposed_block_emission "Corps de séance".data true
    "08:00 (Position haute) décomposées en :".data
    "08:00".data "Position haute".data
    ["03:00 70 à 75 220 à 230".data, "01:00 90 à 95 260 à 270".data]
    (by decide) (by decide) (by decide)

/-! ## Repeat-group re-detection (src/garmin_workout_converter.py)

`detect_repeat_groups(intervals)`: the converter re-scans the flattened
interval list for consecutive runs tagged with the same `repetition_total`
and re-nests each run as one repeat group holding a single copy of the
pattern (`group_intervals[:len // repeat_total]`). -/

/-- The two node shapes `detect_repeat_groups` produces:
`{"type": "single", "interval": ...}` and
`{"type": "repeat", "iterations": N, "steps": [...]}`. -/
inductive StepGroup where
  | single (interval : Interval)
  | repeatGroup (iterations : Nat) (steps : List Interval)
deriving DecidableEq, Repr

/-- The `while` condition of the run collector: same `repetition_total` as
the run's first interval and a present `repetition_iteration`. -/
def repTagged (j : Interval) (t : Nat) : Bool :=
  decide (j.repetition_total = some t) && j.repetition_iteration.isSome

theorem length_dropWhile_le {α : Type} (p : α → Bool) :
    ∀ l : List α, (l.dropWhile p).length ≤ l.length := by
  intro l
  induction l with
  | nil => simp
  | cons a r ih =>
    rw [List.dropWhile]
    split
    · exact Nat.le_succ_of_le ih
    · simp

/-- `detect_repeat_groups`: a head interval carrying both repetition keys
opens a run (collected by the inner `while`), re-nested as one repeat group
around the first `run.length / total` intervals; any other head becomes a
single node. -/
def detect_repeat_groups : List Interval → List StepGroup
  | [] => []
  | iv :: rest =>
    match iv.repetition_total, iv.repetition_iteration with
    | some t, some _ =>
      let run := iv :: rest.takeWhile (fun j => repTagged j t)
      .repeatGroup t (run.take (run.length / t)) ::
        detect_repeat_groups (rest.dropWhile (fun j => repTagged j t))
    | _, _ => .single iv :: detect_repeat_groups rest
  termination_by l => l.length
  decreasing_by
  all_goals
    simp only [List.length_cons]
    first
      | exact Nat.lt_succ_of_le (length_dropWhile_le _ _)
      | omega

/-- An interval missing one of the two repetition keys opens no run. -/
theorem detect_repeat_groups_untagged_cons (iv : Interval)
    (rest : List Interval)
    (hu : iv.repetition_total = none ∨ iv.repetition_iteration = none) :
    detect_repeat_groups (iv :: rest)
      = .single iv :: detect_repeat_groups rest := by
  rw [detect_repeat_groups]
  rcases hu with h | h
  · rw [h]
  · cases htot : iv.repetition_total with
    | none => rfl
    | some t => rw [h]

theorem detect_repeat_groups_untagged_append (l tail : List Interval)
    (hl : ∀ iv ∈ l, iv.repetition_total = none ∨
      iv.repetition_iteration = none) :
    detect_repeat_groups (l ++ tail)
      = l.map StepGroup.single ++ detect_repeat_groups tail := by
  induction l with
  | nil => simp
  | cons iv r ih =>
    rw [List.cons_append,
      detect_repeat_groups_untagged_cons iv (r ++ tail) (hl iv (by simp)),
      ih (fun j hj => hl j (by simp [hj]))]
    rfl

theorem takeWhile_append_of_all {α : Type} (p : α → Bool)
    (xs ys : List α) (h : ∀ x ∈ xs, p x = true) :
    (xs ++ ys).takeWhile p = xs ++ ys.takeWhile p := by
  induction xs with
  | nil => simp
  | cons a r ih =>
    rw [List.cons_append, List.takeWhile_cons, h a (by simp),
      ih (fun x hx => h x (by simp [hx]))]
    rfl

theorem dropWhile_append_of_all {α : Type} (p : α → Bool)
    (xs ys : List α) (h : ∀ x ∈ xs, p x = true) :
    (xs ++ ys).dropWhile p = ys.dropWhile p := by
  induction xs with
  | nil => simp
  | cons a r ih =>
    rw [List.cons_append, List.dropWhile_cons, h a (by simp)]
    simp only [if_true]
    exact ih (fun x hx => h x (by simp [hx]))

theorem takeWhile_eq_nil_of_head {α : Type} (p : α → Bool) (l : List α)
    (h : ∀ x ∈ l, p x = false) : l.takeWhile p = [] := by
  cases l with
  | nil => rfl
  | cons a r => rw [List.takeWhile_cons, h a (by simp)]; rfl

theorem dropWhile_eq_self_of_head {α : Type} (p : α → Bool) (l : List α)
    (h : ∀ x ∈ l, p x = false) : l.dropWhile p = l := by
  cases l with
  | nil => rfl
  | cons a r => rw [List.dropWhile_cons, h a (by simp)]; rfl

/-- Every interval produced by the expansion loop carries the run tag. -/
theorem expandRepetition_tagged (n : Nat) (pattern : List Interval) :
    ∀ x ∈ expandRepetition n pattern, repTagged x n = true := by
  intro x hx
  rw [expandRepetition, List.mem_flatten] at hx
  obtain ⟨l, hl, hxl⟩ := hx
  rw [List.mem_map] at hl
  obtain ⟨k, _, rfl⟩ := hl
  rw [List.mem_map] at hxl
  obtain ⟨j, _, rfl⟩ := hxl
  simp [repTagged]

theorem expandRepetition_length (n : Nat) (pattern : List Interval) :
    (expandRepetition n pattern).length = n * pattern.length := by
  rw [expandRepetition, List.length_flatten]
  rw [List.map_map]
  have : ∀ k ∈ List.range n,
      (List.length ∘ fun iteration => pattern.map (fun interval =>
        ({ interval with
            repetition_iteration := some (iteration + 1)
            repetition_total := some n } : Interval))) k
        = pattern.length := by
    intro k _
    simp
  rw [List.map_congr_left this]
  simp [List.map_const', List.sum_replicate, smul_eq_mul, Nat.mul_comm]

/-- First-copy decomposition of the expansion for a positive count. -/
theorem expandRepetition_succ (m : Nat) (pattern : List Interval) :
    expandRepetition (m + 1) pattern
      = pattern.map (fun iv =>
          { iv with repetition_iteration := some 1,
                    repetition_total := some (m + 1) }) ++
        ((List.range m).map (fun k =>
          pattern.map (fun iv =>
            ({ iv with
                repetition_iteration := some (k + 2)
                repetition_total := some (m + 1) } : Interval)))).flatten := by
  rw [expandRepetition, List.range_succ_eq_map, List.map_cons,
    List.flatten_cons, List.map_map]
  rfl

theorem repTagged_false_of_untagged (x : Interval) (t : Nat)
    (h : x.repetition_total = none ∨ x.repetition_iteration = none) :
    repTagged x t = false := by
  rcases h with h | h <;> simp [repTagged, h]

theorem detect_repeat_groups_untagged_all (l : List Interval)
    (hl : ∀ iv ∈ l, iv.repetition_total = none ∨
      iv.repetition_iteration = none) :
    detect_repeat_groups l = l.map StepGroup.single := by
  have h := detect_repeat_groups_untagged_append l [] hl
  simpa [detect_repeat_groups] using h

/-- Claim C4 — `detect_repeat_groups` inverts the parser's repetition
expansion: a flattened list made of untagged intervals around an
`expandRepetition n pattern` run collapses that whole run into exactly one
repeat group with `iterations = n` wrapping a single copy of the pattern
(the run's length divided by `n` steps), while every untagged interval maps
1:1 to a single node. -/
theorem repeat_group_detection (pre post pattern : List Interval) (n : Nat)
    (hn : 0 < n) (hpat : pattern ≠ [])
    (hpre : ∀ iv ∈ pre, iv.repetition_total = none ∨
      iv.repetition_iteration = none)
    (hpost : ∀ iv ∈ post, iv.repetition_total = none ∨
      iv.repetition_iteration = none) :
    detect_repeat_groups (pre ++ (expandRepetition n pattern ++ post))
      = pre.map StepGroup.single ++
        (StepGroup.repeatGroup n (pattern.map (fun iv =>
            { iv with
                repetition_iteration := some 1
                repetition_total := some n }))
          :: post.map StepGroup.single) := by
  obtain ⟨m, rfl⟩ : ∃ m, n = m + 1 := ⟨n - 1, by omega⟩
  obtain ⟨p0, pr, rfl⟩ : ∃ p0 pr, pattern = p0 :: pr := by
    cases pattern with
    | nil => exact absurd rfl hpat
    | cons a b => exact ⟨a, b, rfl⟩
  rw [detect_repeat_groups_untagged_append _ _ hpre]
  congr 1
  obtain ⟨T, hE⟩ : ∃ T, expandRepetition (m + 1) (p0 :: pr)
      = ((p0 :: pr).map (fun iv =>
          { iv with
              repetition_iteration := some 1
              repetition_total := some (m + 1) })) ++ T :=
    ⟨_, expandRepetition_succ m (p0 :: pr)⟩
  have htagged : ∀ x ∈ expandRepetition (m + 1) (p0 :: pr),
      repTagged x (m + 1) = true := expandRepetition_tagged (m + 1) (p0 :: pr)
  have hlen : (expandRepetition (m + 1) (p0 :: pr)).length
      = (m + 1) * (p0 :: pr).length := expandRepetition_length (m + 1) (p0 :: pr)
  have hpostfalse : ∀ x ∈ post, repTagged x (m + 1) = false :=
    fun x hx => repTagged_false_of_untagged x (m + 1) (hpost x hx)
  -- rewrite the run head into cons form
  rw [hE, List.map_cons, List.cons_append, List.cons_append,
    detect_repeat_groups]
  dsimp only
  have hall : ∀ x ∈ pr.map (fun iv =>
      ({ iv with
          repetition_iteration := some 1
          repetition_total := some (m + 1) } : Interval)) ++ T,
      repTagged x (m + 1) = true := by
    intro x hx
    apply htagged
    rw [hE, List.map_cons, List.cons_append]
    exact List.mem_cons_of_mem _ hx
  rw [takeWhile_append_of_all _ _ _ hall,
    takeWhile_eq_nil_of_head _ _ hpostfalse,
    dropWhile_append_of_all _ _ _ hall,
    dropWhile_eq_self_of_head _ _ hpostfalse,
    List.append_nil]
  have hfold : ({ p0 with
      repetition_iteration := some 1
      repetition_total := some (m + 1) } : Interval) ::
        (pr.map (fun iv =>
          ({ iv with
              repetition_iteration := some 1
              repetition_total := some (m + 1) } : Interval)) ++ T)
      = expandRepetition (m + 1) (p0 :: pr) := by
    rw [hE]
    rfl
  rw [hfold, hlen, Nat.mul_div_cancel_left _ (by omega),
    detect_repeat_groups_untagged_all post hpost]
  congr 1
  rw [hE, ← List.length_map (p0 :: pr) (fun iv =>
    ({ iv with
        repetition_iteration := some 1
        repetition_total := some (m + 1) } : Interval)),
    List.take_left]
  rfl

/-- A concrete untagged Body-phase interval, for witnesses. -/
def mkBodyInterval (dur cad pow : String) : Interval :=
  { phase := "Corps de séance".data, duration := dur.data,
    cadence_rpm := cad.data, cadence_upload_to_garmin := false,
    power_watts_original := pow.data, power_watts := pow.data,
    power_adjustment_w := .watts 0 }

/-- Witness for C4: one plain interval, a 2-fold expansion of a two-step
pattern, one plain interval — regrouped as single / repeat(2) / single. -/
theorem repeat_group_detection_witness :
    detect_repeat_groups
        ([mkBodyInterval "08:00" "80à85" "200à210"] ++
          (expandRepetition 2
            [mkBodyInterval "03:00" "70à75" "220à230",
             mkBodyInterval "01:00" "90à95" "260à270"] ++
           [mkBodyInterval "05:00" "85à90" "190à200"]))
      = [mkBodyInterval "08:00" "80à85" "200à210"].map StepGroup.single ++
        (StepGroup.repeatGroup 2
          ([mkBodyInterval "03:00" "70à75" "220à230",
            mkBodyInterval "01:00" "90à95" "260à270"].map (fun iv =>
              { iv with
                  repetition_iteration := some 1
                  repetition_total := some 2 }))
          :: [mkBodyInterval "05:00" "85à90" "190à200"].map StepGroup.single) :=
  repeat_group_detection _ _ _ 2 (by decide) (by decide) (by decide)
    (by decide)

/-! ## Cloud step construction (src/garmin_workout_converter.py)

`create_cycling_step(step_order, interval)` and its helpers.  The float
wrappers (`float(duration_seconds)`, `float(target_power_low)`) carry exact
integer values, so the fields are modelled as `Nat`. -/

/-- The `ExecutableStepDTO` dict built by `create_cycling_step`; the
`description` key is present only when position or cadence text exists. -/
structure GarminStep where
  stepOrder : Nat
  stepTypeId : Nat
  stepTypeKey : List Char
  conditionTypeId : Nat
  conditionTypeKey : List Char
  endConditionValue : Nat
  targetTypeId : Nat
  targetTypeKey : List Char
  targetValueOne : Nat
  targetValueTwo : Nat
  description : Option (List Char)
deriving DecidableEq, Repr

/-- `parse_duration_to_seconds` (converter module): `MM:SS` split on `:`,
otherwise whole minutes. -/
def parse_duration_to_seconds (duration_str : List Char) : Option Nat :=
  if ':' ∈ duration_str then
    match pySplitOn ':' duration_str with
    | p0 :: p1 :: _ => do return (← pyIntNat p0) * 60 + (← pyIntNat p1)
    | _ => none
  else (pyIntNat duration_str).map (· * 60)

/-- The step-type dispatch on the lowered phase text (note that `cup`
catches `récup` before the dedicated rest branch can see it). -/
def stepTypeOfPhase (phase : List Char) : Nat × List Char :=
  let p := pyLower phase
  if containsSub p "chauffement".data || containsSub p "warmup".data then
    (1, "warmup".data)
  else if containsSub p "cup".data || containsSub p "cooldown".data then
    (5, "cooldown".data)
  else if containsSub p "repos".data || containsSub p "récup".data ||
      containsSub p "rest".data then
    (4, "rest".data)
  else (3, "interval".data)

/-- `power_watts` split on `à` into the two step targets, or a single value
for both bounds. -/
def parsePowerPair (power_str : List Char) : Option (Nat × Nat) :=
  if 'à' ∈ power_str then
    match pySplitOn 'à' power_str with
    | p0 :: p1 :: _ => do return ((← pyIntNat p0), (← pyIntNat p1))
    | _ => none
  else (pyIntNat power_str).map (fun v => (v, v))

/-- `" - ".join(parts)`. -/
def joinSep (sep : List Char) : List (List Char) → List Char
  | [] => []
  | [x] => x
  | x :: xs => x ++ sep ++ joinSep sep xs

/-- The description assembly: position (when present and non-empty) and
`Cadence: <value> rpm` (when non-empty and not `libre`), dash-joined; no
key at all when both parts are missing. -/
def stepDescription (interval : Interval) : Option (List Char) :=
  let parts :=
    (match interval.position with
     | some pos => if pos = [] then [] else [pos]
     | none => []) ++
    (if interval.cadence_rpm = [] ∨ interval.cadence_rpm = "libre".data
     then []
     else [("Cadence: ".data ++ interval.cadence_rpm ++ " rpm".data)])
  match parts with
  | [] => none
  | _ => some (joinSep " - ".data parts)

/-- `create_cycling_step(step_order, interval)`; `none` models the
`ValueError` that `int()` raises on malformed duration or power text. -/
def create_cycling_step (step_order : Nat) (interval : Interval) :
    Option GarminStep := do
  let duration_seconds ← parse_duration_to_seconds interval.duration
  let powers ← parsePowerPair interval.power_watts
  let st := stepTypeOfPhase interval.phase
  return { stepOrder := step_order, stepTypeId := st.1, stepTypeKey := st.2,
           conditionTypeId := 2, conditionTypeKey := "time".data,
           endConditionValue := duration_seconds,
           targetTypeId := 2, targetTypeKey := "power.zone".data,
           targetValueOne := powers.1, targetValueTwo := powers.2,
           description := stepDescription interval }

/-- Erase the free-text description, keeping every structured field. -/
def stripDescription (st : GarminStep) : GarminStep :=
  { st with description := none }

/-- Claim C9, counterexample — the uploaded cycling step payload *does* carry
the interval's cadence value: for a Body interval with cadence `70à75`,
`create_cycling_step` emits a step whose `description` field contains
`70à75` (namely `"Cadence: 70à75 rpm"`). -/
theorem create_cycling_step_includes_cadence :
    (create_cycling_step 1 (mkBodyInterval "03:00" "70à75" "235à245")).map
        (fun st => st.description)
      = some (some "Cadence: 70à75 rpm".data)
    ∧ (create_cycling_step 1 (mkBodyInterval "03:00" "70à75" "235à245")).map
        (fun st => containsSub (st.description.getD []) "70à75".data)
      = some true := by
  constructor
  · decide
  · decide

/-- Claim C9, amended — the cadence value never reaches any structured field
of the step: two intervals differing only in `cadence_rpm` produce steps
that agree everywhere outside the free-text `description` (where
`create_cycling_step` deliberately embeds `Cadence: ... rpm`). -/
theorem cadence_only_in_description (step_order : Nat) (iv : Interval)
    (c : List Char) :
    (create_cycling_step step_order { iv with cadence_rpm := c }).map
        stripDescription
      = (create_cycling_step step_order iv).map stripDescription := by
  unfold create_cycling_step
  dsimp only
  cases hd : parse_duration_to_seconds iv.duration with
  | none => rfl
  | some d =>
    cases hp : parsePowerPair iv.power_watts with
    | none => rfl
    | some pw => rfl

/-! ## Weekly batch upload (scripts/upload_weekly_workouts.py)

The per-workout loop of `upload_weekly_workouts`: the network call
(`convert_to_garmin_*_workout` + `garmin.client.upload_workout`, both inside
the `try`) is abstracted as an `attempt` oracle returning either a workout id
or the exception message. -/

structure Workout where
  code : List Char
  wtype : List Char
  date : Option (List Char)
  intervals : List Interval
deriving DecidableEq, Repr

structure UploadedEntry where
  code : List Char
  wtype : List Char
  date : Option (List Char)
  workout_id : Nat
deriving DecidableEq, Repr

structure SkippedEntry where
  code : List Char
  date : Option (List Char)
  reason : List Char
deriving DecidableEq, Repr

structure ErrorEntry where
  code : List Char
  date : Option (List Char)
  error : List Char
deriving DecidableEq, Repr

/-- The three buckets persisted in `{week}_upload_result.json`. -/
structure BatchSummary where
  uploaded : List UploadedEntry
  skipped : List SkippedEntry
  errors : List ErrorEntry
deriving DecidableEq, Repr

/-- One discipline's upload loop: a workout without intervals is skipped
with the discipline's reason; otherwise the upload is attempted, a success
appended to `uploaded` and a raised exception caught and appended to
`errors` — the loop always continues to the next workout. -/
def processUploads (attempt : Workout → Except (List Char) Nat)
    (typeName skipReason : List Char) :
    List Workout → (List UploadedEntry × List SkippedEntry × List ErrorEntry)
  | [] => ([], [], [])
  | w :: rest =>
    let r := processUploads attempt typeName skipReason rest
    if w.intervals = [] then
      (r.1, ⟨w.code, w.date, skipReason⟩ :: r.2.1, r.2.2)
    else
      match attempt w with
      | .ok wid => (⟨w.code, typeName, w.date, wid⟩ :: r.1, r.2.1, r.2.2)
      | .error msg => (r.1, r.2.1, ⟨w.code, w.date, msg⟩ :: r.2.2)

/-- `upload_weekly_workouts`: group by discipline, run the cycling and
running loops, skip every swimming workout, and report the three buckets. -/
def upload_weekly_workouts (attempt : Workout → Except (List Char) Nat)
    (workouts : List Workout) : BatchSummary :=
  let cycling := workouts.filter (fun w => decide (w.wtype = "Cyclisme".data))
  let running := workouts.filter
    (fun w => decide (w.wtype = "Course à pied".data))
  let swimming := workouts.filter
    (fun w => decide (w.wtype = "Natation".data))
  let rc := processUploads attempt "Cyclisme".data "Pas d\x27intervalles".data
    cycling
  let rr := processUploads attempt "Course à pied".data "Séance libre".data
    running
  let swimSkipped := swimming.map (fun w =>
    (⟨w.code, w.date, "Natation non supportée".data⟩ : SkippedEntry))
  { uploaded := rc.1 ++ rr.1,
    skipped := rc.2.1 ++ rr.2.1 ++ swimSkipped,
    errors := rc.2.2 ++ rr.2.2 }

/-- Each discipline loop puts every workout's code in exactly one bucket. -/
theorem processUploads_codes (attempt : Workout → Except (List Char) Nat)
    (typeName skipReason : List Char) :
    ∀ ws : List Workout,
      ((processUploads attempt typeName skipReason ws).1.map (·.code) ++
        ((processUploads attempt typeName skipReason ws).2.1.map (·.code) ++
          (processUploads attempt typeName skipReason ws).2.2.map (·.code))).Perm
        (ws.map (·.code)) := by
  intro ws
  induction ws with
  | nil => simp [processUploads]
  | cons w rest ih =>
    rw [processUploads]
    split
    · refine List.Perm.trans ?_ ((ih.cons w.code).symm.symm)
      simp only [List.map_cons]
      exact List.perm_middle.trans (List.Perm.cons _ (List.Perm.refl _))
        |>.symm.symm
    · split
      · simp only [List.map_cons, List.cons_append]
        exact ih.cons w.code
      · refine List.Perm.trans ?_ (ih.cons w.code)
        simp only [List.map_cons]
        have h1 : (processUploads attempt typeName skipReason rest).1.map
              (·.code) ++
            ((processUploads attempt typeName skipReason rest).2.1.map
              (·.code) ++
              w.code :: (processUploads attempt typeName skipReason
                rest).2.2.map (·.code))
            = ((processUploads attempt typeName skipReason rest).1.map
                (·.code) ++
              (processUploads attempt typeName skipReason rest).2.1.map
                (·.code)) ++
              w.code :: (processUploads attempt typeName skipReason
                rest).2.2.map (·.code) := by
          simp
        rw [h1]
        refine List.perm_middle.trans ?_
        apply List.Perm.cons
        simp

/-- The three discipline filters partition a workout list whose types all
belong to the three recognised disciplines. -/
theorem filter_three_types_perm :
    ∀ ws : List Workout,
      (∀ w ∈ ws, w.wtype = "Cyclisme".data ∨
        w.wtype = "Course à pied".data ∨ w.wtype = "Natation".data) →
      (ws.filter (fun w => decide (w.wtype = "Cyclisme".data)) ++
        (ws.filter (fun w => decide (w.wtype = "Course à pied".data)) ++
          ws.filter (fun w => decide (w.wtype = "Natation".data)))).Perm
        ws := by
  intro ws h
  induction ws with
  | nil => simp
  | cons w rest ih =>
    have hrest := ih (fun x hx => h x (List.mem_cons_of_mem _ hx))
    have e1 : (decide (("Cyclisme".data : List Char) = "Cyclisme".data))
        = true := by decide
    have e2 : (decide (("Course à pied".data : List Char)
        = "Course à pied".data)) = true := by decide
    have e3 : (decide (("Natation".data : List Char) = "Natation".data))
        = true := by decide
    have d12 : (decide (("Cyclisme".data : List Char)
        = "Course à pied".data)) = false := by decide
    have d13 : (decide (("Cyclisme".data : List Char) = "Natation".data))
        = false := by decide
    have d21 : (decide (("Course à pied".data : List Char)
        = "Cyclisme".data)) = false := by decide
    have d23 : (decide (("Course à pied".data : List Char)
        = "Natation".data)) = false := by decide
    have d31 : (decide (("Natation".data : List Char) = "Cyclisme".data))
        = false := by decide
    have d32 : (decide (("Natation".data : List Char)
        = "Course à pied".data)) = false := by decide
    rcases h w (by simp) with hw | hw | hw
    · simp only [List.filter_cons, hw, e1, d12, d13, if_true, if_false,
        List.cons_append]
      exact hrest.cons w
    · simp only [List.filter_cons, hw, e2, d21, d23, if_true, if_false,
        List.cons_append]
      exact List.perm_middle.trans (hrest.cons w)
    · simp only [List.filter_cons, hw, e3, d31, d32, if_true, if_false,
        List.cons_append]
      rw [← List.append_assoc]
      refine List.perm_middle.trans ?_
      rw [List.append_assoc]
      exact hrest.cons w

/-- Claim C7 — partial-failure batch semantics: (i) the summary's three
buckets partition the batch, every workout's code landing in exactly one of
uploaded / skipped / errors; (ii) in a 3-workout batch where the 2nd upload
raises, the failure is recorded as an error entry carrying that workout's
code and message, and the 1st and 3rd are still uploaded. -/
theorem upload_batch_partial_failure :
    (∀ (attempt : Workout → Except (List Char) Nat) (ws : List Workout),
      (∀ w ∈ ws, w.wtype = "Cyclisme".data ∨
        w.wtype = "Course à pied".data ∨ w.wtype = "Natation".data) →
      ((upload_weekly_workouts attempt ws).uploaded.map (·.code) ++
        ((upload_weekly_workouts attempt ws).skipped.map (·.code) ++
          (upload_weekly_workouts attempt ws).errors.map (·.code))).Perm
        (ws.map (·.code)))
    ∧ (∀ (attempt : Workout → Except (List Char) Nat)
        (w1 w2 w3 : Workout) (e : List Char) (i1 i3 : Nat),
        w1.wtype = "Cyclisme".data → w2.wtype = "Cyclisme".data →
        w3.wtype = "Cyclisme".data →
        w1.intervals ≠ [] → w2.intervals ≠ [] → w3.intervals ≠ [] →
        attempt w1 = .ok i1 → attempt w2 = .error e →
        attempt w3 = .ok i3 →
        (upload_weekly_workouts attempt [w1, w2, w3]).uploaded
            = [⟨w1.code, "Cyclisme".data, w1.date, i1⟩,
               ⟨w3.code, "Cyclisme".data, w3.date, i3⟩]
          ∧ (upload_weekly_workouts attempt [w1, w2, w3]).errors
            = [⟨w2.code, w2.date, e⟩]
          ∧ (upload_weekly_workouts attempt [w1, w2, w3]).skipped = []) := by
  constructor
  · intro attempt ws hty
    have hc := processUploads_codes attempt "Cyclisme".data
      "Pas d\x27intervalles".data
      (ws.filter (fun w => decide (w.wtype = "Cyclisme".data)))
    have hr := processUploads_codes attempt "Course à pied".data
      "Séance libre".data
      (ws.filter (fun w => decide (w.wtype = "Course à pied".data)))
    have hpart := (filter_three_types_perm ws hty).map (·.code)
    rw [List.map_append, List.map_append] at hpart
    rw [upload_weekly_workouts]
    dsimp only
    simp only [List.map_append, List.map_map]
    have hswim : ((ws.filter (fun w => decide (w.wtype = "Natation".data))).map
          ((fun s => s.code) ∘ (fun w =>
            (⟨w.code, w.date, "Natation non supportée".data⟩ : SkippedEntry))))
        = (ws.filter (fun w => decide (w.wtype = "Natation".data))).map
          (fun w => w.code) := by
      simp [Function.comp]
    rw [hswim]
    rw [← Multiset.coe_eq_coe] at hc hr hpart ⊢
    simp only [← Multiset.coe_add] at hc hr hpart ⊢
    rw [← hpart, ← hc, ← hr]
    abel
  · intro attempt w1 w2 w3 e i1 i3 h1 h2 h3 n1 n2 n3 a1 a2 a3
    have dcc : (decide (("Cyclisme".data : List Char) = "Cyclisme".data))
        = true := by decide
    have dcr : (decide (("Cyclisme".data : List Char)
        = "Course à pied".data)) = false := by decide
    have dcn : (decide (("Cyclisme".data : List Char) = "Natation".data))
        = false := by decide
    have f1 : ([w1, w2, w3].filter
        (fun w => decide (w.wtype = "Cyclisme".data))) = [w1, w2, w3] := by
      simp [List.filter_cons, h1, h2, h3, dcc]
    have f2 : ([w1, w2, w3].filter
        (fun w => decide (w.wtype = "Course à pied".data))) = [] := by
      simp [List.filter_cons, h1, h2, h3, dcr]
    have f3 : ([w1, w2, w3].filter
        (fun w => decide (w.wtype = "Natation".data))) = [] := by
      simp [List.filter_cons, h1, h2, h3, dcn]
    have hp : processUploads attempt "Cyclisme".data
        "Pas d\x27intervalles".data [w1, w2, w3]
        = ([⟨w1.code, "Cyclisme".data, w1.date, i1⟩,
            ⟨w3.code, "Cyclisme".data, w3.date, i3⟩],
           [], [⟨w2.code, w2.date, e⟩]) := by
      rw [processUploads, processUploads, processUploads, processUploads]
      simp only [if_neg n1, if_neg n2, if_neg n3, a1, a2, a3]
    rw [upload_weekly_workouts]
    dsimp only
    rw [f1, f2, f3, hp]
    refine ⟨?_, ?_, ?_⟩ <;> simp [processUploads]

/-- Witness for C7: three cycling workouts C1, C2, C3 with intervals, where
uploading C2 raises `HTTP 500` — C1 and C3 are uploaded, C2 is recorded as
an error, nothing is skipped, and the three buckets cover the batch. -/
theorem upload_batch_partial_failure_witness :
    ((upload_weekly_workouts
        (fun w => if w.code = "C2".data then Except.error "HTTP 500".data
          else Except.ok 7)
        [⟨"C1".data, "Cyclisme".data, none,
           [mkBodyInterval "03:00" "70à75" "220à230"]⟩,
         ⟨"C2".data, "Cyclisme".data, none,
           [mkBodyInterval "03:00" "70à75" "220à230"]⟩,
         ⟨"C3".data, "Cyclisme".data, none,
           [mkBodyInterval "03:00" "70à75" "220à230"]⟩]).uploaded.map (·.code)
      ++ ((upload_weekly_workouts
        (fun w => if w.code = "C2".data then Except.error "HTTP 500".data
          else Except.ok 7)
        [⟨"C1".data, "Cyclisme".data, none,
           [mkBodyInterval "03:00" "70à75" "220à230"]⟩,
         ⟨"C2".data, "Cyclisme".data, none,
           [mkBodyInterval "03:00" "70à75" "220à230"]⟩,
         ⟨"C3".data, "Cyclisme".data, none,
           [mkBodyInterval "03:00" "70à75" "220à230"]⟩]).skipped.map (·.code)
        ++ (upload_weekly_workouts
        (fun w => if w.code = "C2".data then Except.error "HTTP 500".data
          else Except.ok 7)
        [⟨"C1".data, "Cyclisme".data, none,
           [mkBodyInterval "03:00" "70à75" "220à230"]⟩,
         ⟨"C2".data, "Cyclisme".data, none,
           [mkBodyInterval "03:00" "70à75" "220à230"]⟩,
         ⟨"C3".data, "Cyclisme".data, none,
           [mkBodyInterval "03:00" "70à75" "220à230"]⟩]).errors.map
          (·.code))).Perm ["C1".data, "C2".data, "C3".data]
    ∧ (upload_weekly_workouts
        (fun w => if w.code = "C2".data then Except.error "HTTP 500".data
          else Except.ok 7)
        [⟨"C1".data, "Cyclisme".data, none,
           [mkBodyInterval "03:00" "70à75" "220à230"]⟩,
         ⟨"C2".data, "Cyclisme".data, none,
           [mkBodyInterval "03:00" "70à75" "220à230"]⟩,
         ⟨"C3".data, "Cyclisme".data, none,
           [mkBodyInterval "03:00" "70à75" "220à230"]⟩]).errors
      = [⟨"C2".data, none, "HTTP 500".data⟩]
    ∧ (upload_weekly_workouts
        (fun w => if w.code = "C2".data then Except.error "HTTP 500".data
          else Except.ok 7)
        [⟨"C1".data, "Cyclisme".data, none,
           [mkBodyInterval "03:00" "70à75" "220à230"]⟩,
         ⟨"C2".data, "Cyclisme".data, none,
           [mkBodyInterval "03:00" "70à75" "220à230"]⟩,
         ⟨"C3".data, "Cyclisme".data, none,
           [mkBodyInterval "03:00" "70à75" "220à230"]⟩]).skipped = [] := by
  obtain ⟨H1, H2⟩ := upload_batch_partial_failure
  refine ⟨H1 _ _ (by decide), ?_, ?_⟩
  · exact (H2 _ _ _ _ "HTTP 500".data 7 7 (by decide) (by decide) (by decide)
      (by decide) (by decide) (by decide) (by rfl) (by rfl) (by rfl)).2.1
  · exact (H2 _ _ _ _ "HTTP 500".data 7 7 (by decide) (by decide) (by decide)
      (by decide) (by decide) (by decide) (by rfl) (by rfl) (by rfl)).2.2

/-! ## Phase tracking of the table parser (src/pdf_parser.py)

`TriathlonPDFParser._parse_cycling_table` walks the table lines keeping a
`current_phase`; a line containing a phase label sets the phase to that
label unconditionally (the same assignment logic appears in
`_parse_cycling_table_v3_with_ht_rules` of src/pdf_parser_v3.py,
lines 841-852). -/

/-- The interval dicts of the older parser (no HT fields). -/
structure IntervalV1 where
  phase : List Char
  duration : List Char
  cadence_rpm : List Char
  power_watts : List Char
  position : Option (List Char) := none
deriving DecidableEq, Repr

/-- The phase update applied to each line: any line containing a label sets
`current_phase` to that label, whatever the current phase is. -/
def phaseStep (cur : Option (List Char)) (line : List Char) :
    Option (List Char) :=
  if containsSub line "Echauffement".data then some "Echauffement".data
  else if containsSub line "Corps de séance".data then
    some "Corps de séance".data
  else if containsSub line "Récupération".data then
    some "Récupération".data
  else cur

/-- The position scan of a table line. -/
def positionOfLine (line : List Char) : Option (List Char) :=
  if containsSub line "Position aéro".data ||
      containsSub line "aéro.".data then some "Position aéro".data
  else if containsSub line "Position haute".data then
    some "Position haute".data
  else none

/-- `_parse_cycling_table`'s loop: strip, update the phase, emit an interval
when the duration-cadence-power pattern matches and a phase is set. -/
def goCyclingTable (cur : Option (List Char)) :
    List (List Char) → List IntervalV1
  | [] => []
  | line :: rest =>
    let sl := pyStrip line
    let cur2 := phaseStep cur sl
    match searchSubInterval sl, cur2 with
    | some (dur, cad, pow), some p =>
      { phase := p, duration := dur, cadence_rpm := dropSpaces cad,
        power_watts := dropSpaces pow, position := positionOfLine sl }
        :: goCyclingTable cur2 rest
    | _, _ => goCyclingTable cur2 rest

/-- `_parse_cycling_table(table_text)`. -/
def parse_cycling_table (table_text : List Char) : List IntervalV1 :=
  goCyclingTable none (pySplitOn '\n' table_text)

/-- Claim C6, counterexample — the phase state *does* transition back: on a
table whose `Echauffement` header recurs after `Corps de séance`, the parser
emits a Body interval followed by a Warmup interval, i.e. the state returned
from Body to Warmup. -/
theorem phase_regression_counterexample :
    (parse_cycling_table
        ("Corps de séance\n03:00 70 à 75 220 à 230\nEchauffement\n04:00 80 à 85 200 à 210").data).map
        (fun iv => iv.phase)
      = ["Corps de séance".data, "Echauffement".data] := by
  decide

/-- Claim C6, amended — the parser's current phase simply tracks the most
recent phase-header label: a line containing `Echauffement` resets the state
to Warmup whatever phase was already reached, so recurring labels do move
the parser back to earlier phases. -/
theorem phase_follows_latest_label (cur : Option (List Char))
    (line : List Char)
    (h : containsSub line "Echauffement".data = true) :
    phaseStep cur line = some "Echauffement".data := by
  unfold phaseStep
  rw [h]
  rfl

/-- Witness for the amended C6 theorem: a recurring `Echauffement` header
moves the state back from Body to Warmup. -/
theorem phase_follows_latest_label_witness :
    phaseStep (some "Corps de séance".data) "Echauffement".data
      = some "Echauffement".data :=
  phase_follows_latest_label (some "Corps de séance".data)
    "Echauffement".data (by decide)

end UploadGarmin
